import Mathlib

/-!
Verification development for the jttp repository, a minimal HTTP client
wrapper.  The repository ships three near-identical variants of the same
class: `Jttp` (src/unnamed/part_002), `Yesttp` (src/unnamed/part_003) and
`Lighttp` (src/src/index.ts, textually identical to `Jttp`).  Strings are
embedded as `List Char`; JavaScript `undefined`/`null` values become
`Option`; promises are collapsed to values and promise rejection to
`Except.error`; the injected `fetch` transport, the user interceptors and
the ambient `JSON.parse` are function parameters.
-/

/-- Character data of a JavaScript string. -/
abbrev Chars := List Char

mutual

/-- JSON values, as produced by the structured request bodies and
`JSON.parse` results the client handles.  A mutual inductive (rather than
a nested one) keeps all functions structurally recursive. -/
inductive JsonVal where
  | null : JsonVal
  | bool (b : Bool) : JsonVal
  | num (n : Int) : JsonVal
  | str (s : Chars) : JsonVal
  | arr (items : JsonArr) : JsonVal
  | obj (fields : JsonFields) : JsonVal

/-- List of JSON array items. -/
inductive JsonArr where
  | nil : JsonArr
  | cons (head : JsonVal) (tail : JsonArr) : JsonArr

/-- List of JSON object fields. -/
inductive JsonFields where
  | nil : JsonFields
  | cons (key : Chars) (val : JsonVal) (tail : JsonFields) : JsonFields

end

/-- JavaScript truthiness of a JSON value: `null`, `false`, `0` and the
empty string are falsy, everything else (including empty arrays and
objects) is truthy. -/
def jsTruthy : JsonVal → Bool
  | .null => false
  | .bool b => b
  | .num n => !(n == 0)
  | .str s => !s.isEmpty
  | .arr _ => true
  | .obj _ => true

/-- JavaScript truthiness of a possibly-`undefined` JSON value
(`undefined` is falsy). -/
def jsTruthyOpt : Option JsonVal → Bool
  | none => false
  | some v => jsTruthy v

/-- Lower-case hexadecimal digit, used by the `\uXXXX` escapes of
`JSON.stringify`. -/
def hexDigitLower (n : Nat) : Char :=
  if n < 10 then Char.ofNat (48 + n) else Char.ofNat (87 + n)

/-- Upper-case hexadecimal digit, used by the percent-escapes of
`URLSearchParams`. -/
def hexDigitUpper (n : Nat) : Char :=
  if n < 10 then Char.ofNat (48 + n) else Char.ofNat (55 + n)

/-- Escaping of one character inside a JSON string literal, as performed
by `JSON.stringify`. -/
def escapeJsonChar (c : Char) : Chars :=
  if c == '"' then ['\\', '"']
  else if c == '\\' then ['\\', '\\']
  else if c == '\n' then ['\\', 'n']
  else if c == '\r' then ['\\', 'r']
  else if c == '\t' then ['\\', 't']
  else if c.toNat < 32 then
    ['\\', 'u', '0', '0', hexDigitLower (c.toNat / 16), hexDigitLower (c.toNat % 16)]
  else [c]

/-- Body of a JSON string literal. -/
def encodeStringBody (s : Chars) : Chars := (s.map escapeJsonChar).flatten

/-- Decimal literal of an integer, as printed by `JSON.stringify`. -/
def encodeIntLit (n : Int) : Chars :=
  if n < 0 then '-' :: Nat.toDigits 10 n.natAbs else Nat.toDigits 10 n.natAbs

mutual

/-- Model of the JavaScript builtin `JSON.stringify` on the value domain
above (ECMA-404 serialization). -/
def encodeJson : JsonVal → Chars
  | .null => "null".toList
  | .bool true => "true".toList
  | .bool false => "false".toList
  | .num n => encodeIntLit n
  | .str s => '"' :: encodeStringBody s ++ ['"']
  | .arr items => '[' :: encodeArrayItems items ++ [']']
  | .obj fields => '\x7b' :: encodeObjFields fields ++ ['\x7d']

/-- Comma-joined encodings of array items. -/
def encodeArrayItems : JsonArr → Chars
  | .nil => []
  | .cons x .nil => encodeJson x
  | .cons x (.cons y rest) => encodeJson x ++ ',' :: encodeArrayItems (.cons y rest)

/-- Comma-joined `"key":value` encodings of object fields. -/
def encodeObjFields : JsonFields → Chars
  | .nil => []
  | .cons k v .nil => '"' :: encodeStringBody k ++ '"' :: ':' :: encodeJson v
  | .cons k v (.cons k2 v2 rest) =>
      ('"' :: encodeStringBody k ++ '"' :: ':' :: encodeJson v)
        ++ ',' :: encodeObjFields (.cons k2 v2 rest)

end

/-- Form-url encoding of one character, as performed by the
`URLSearchParams` serializer (application/x-www-form-urlencoded): ASCII
alphanumerics and `*`, `-`, `.`, `_` are kept, a space becomes `+`, every
other character is percent-encoded byte-wise from its UTF-8 encoding. -/
def formEncodeChar (c : Char) : Chars :=
  if c.isAlphanum && c.toNat < 128 then [c]
  else if c == '*' || c == '-' || c == '.' || c == '_' then [c]
  else if c == ' ' then ['+']
  else
    (utf8Bytes c.toNat).map percentByte |>.flatten
where
  /-- UTF-8 bytes of a code point. -/
  utf8Bytes (n : Nat) : List Nat :=
    if n < 128 then [n]
    else if n < 2048 then [192 + n / 64, 128 + n % 64]
    else if n < 65536 then [224 + n / 4096, 128 + (n / 64) % 64, 128 + n % 64]
    else [240 + n / 262144, 128 + (n / 4096) % 64, 128 + (n / 64) % 64, 128 + n % 64]
  /-- `%XX` escape of one byte. -/
  percentByte (b : Nat) : Chars := ['%', hexDigitUpper (b / 16), hexDigitUpper (b % 16)]

/-- Form-url encoding of a string. -/
def formEncodeStr (s : Chars) : Chars := (s.map formEncodeChar).flatten

/-- `URLSearchParams(record).toString()`: `key=value` pairs joined with
`&`, both sides form-url encoded, in the record's insertion order. -/
def encodeSearchParams : List (Chars × Chars) → Chars
  | [] => []
  | [(k, v)] => formEncodeStr k ++ '=' :: formEncodeStr v
  | (k, v) :: kv :: rest =>
      formEncodeStr k ++ '=' :: formEncodeStr v ++ '&' :: encodeSearchParams (kv :: rest)

/-- The spread-then-delete loop of `constructCompleteUrl` (lines 120-125
of part_002): entries whose value is `undefined` are dropped before the
remaining mapping is handed to `URLSearchParams`, preserving order. -/
def dropAbsentParams (ps : List (Chars × Option Chars)) : List (Chars × Chars) :=
  ps.filterMap (fun kv => kv.2.map (fun v => (kv.1, v)))

/-- `url.match(/^https?:\/\//)` as a boolean: the url begins with
`http://` or `https://`. -/
def isAbsoluteUrl : Chars → Bool
  | 'h' :: 't' :: 't' :: 'p' :: ':' :: '/' :: '/' :: _ => true
  | 'h' :: 't' :: 't' :: 'p' :: 's' :: ':' :: '/' :: '/' :: _ => true
  | _ => false

/-- `baseUrl.endsWith('/')`. -/
def endsWithSlash (l : Chars) : Bool :=
  match l.getLast? with
  | some c => c == '/'
  | none => false

/-- `url.startsWith('/')`. -/
def startsWithSlash : Chars → Bool
  | c :: _ => c == '/'
  | [] => false

/-- The base/path joining part of `constructCompleteUrl` (lines 107-119
of part_002; identical in part_003 and src/src/index.ts): an absolute url
is returned as-is and the base is ignored; otherwise the slash at the
boundary is dropped, inserted or left alone depending on the trailing
slash of the base and the leading slash of the path.  An absent base is
`this.baseUrl || ''`. -/
def joinBaseAndPath (baseUrl : Option Chars) (url : Chars) : Chars :=
  if isAbsoluteUrl url then url
  else
    let b := baseUrl.getD []
    let insertSlash := !endsWithSlash b && !startsWithSlash url
    let removeSlash := endsWithSlash b && startsWithSlash url
    if removeSlash then b.dropLast ++ url
    else b ++ (if insertSlash then ['/'] else []) ++ url

/-- The query-string tail of `constructCompleteUrl`: `?` plus the encoded
parameters when the encoding is non-empty, nothing otherwise. -/
def querySuffix (ps : List (Chars × Option Chars)) : Chars :=
  let params := encodeSearchParams (dropAbsentParams ps)
  if params = [] then [] else '?' :: params

/-- `constructCompleteUrl` of part_002 lines 106-131 (url builder):
base/path join followed by the query string. -/
def constructCompleteUrl (baseUrl : Option Chars) (url : Chars)
    (searchParams : List (Chars × Option Chars)) : Chars :=
  let completeUrl := joinBaseAndPath baseUrl url
  let params := encodeSearchParams (dropAbsentParams searchParams)
  if params = [] then completeUrl else completeUrl ++ '?' :: params

/-- Base with one trailing slash removed when present (the base's
contribution to the joined url in the drop-a-slash case). -/
def stripTrailingSlash (l : Chars) : Chars :=
  if endsWithSlash l then l.dropLast else l

/-- Path with one leading slash removed when present. -/
def stripLeadingSlash (l : Chars) : Chars :=
  if startsWithSlash l then l.tail else l

/-- The base ends with two slashes. -/
def twoTrailingSlashes (l : Chars) : Bool :=
  endsWithSlash l && endsWithSlash l.dropLast

/-- The path starts with two slashes. -/
def twoLeadingSlashes (l : Chars) : Bool :=
  startsWithSlash l && startsWithSlash l.tail

/-- The mapping a pre-normalization search-params mapping denotes once
its absent-valued keys are removed (same keys, all values defined). -/
def definedOnly (ps : List (Chars × Option Chars)) : List (Chars × Option Chars) :=
  ps.filterMap (fun kv => kv.2.map (fun v => (kv.1, some v)))

/-- Header-record lookup `headers?.[key]`: a missing key and a key mapped
to `undefined` both read as `undefined`. -/
def getHeaderVal (hs : List (Chars × Option Chars)) (k : Chars) : Option Chars :=
  match hs with
  | [] => none
  | (k2, v) :: rest => if k2 == k then v else getHeaderVal rest k

/-- The object literal `{...headers, [k]: v}`: the value of `k` is
replaced in place when the key exists and appended otherwise. -/
def setHeader (hs : List (Chars × Option Chars)) (k : Chars) (v : Option Chars) :
    List (Chars × Option Chars) :=
  match hs with
  | [] => [(k, v)]
  | (k2, v2) :: rest => if k2 == k then (k2, v) :: rest else (k2, v2) :: setHeader rest k v

/-- JavaScript `a || b` on a string-or-undefined left operand: `a` when it
is a defined non-empty string, `b` otherwise (`undefined` and the empty
string are falsy). -/
def orElseJs (a b : Option Chars) : Option Chars :=
  match a with
  | some s => if s.isEmpty then b else some s
  | none => b

/-- `removeUndefinedMappings` of part_002 lines 133-142: keeps exactly the
entries whose value is defined (the source also drops `null` values, which
this embedding identifies with `undefined`), preserving order. -/
def removeUndefinedMappings (hs : List (Chars × Option Chars)) : List (Chars × Chars) :=
  hs.filterMap (fun kv => kv.2.map (fun v => (kv.1, v)))

/-- Assoc update used by `parseFetchHeaders`: JavaScript record assignment
`result[key] = value`. -/
def setPlainHeader (hs : List (Chars × Chars)) (k v : Chars) : List (Chars × Chars) :=
  match hs with
  | [] => [(k, v)]
  | (k2, v2) :: rest => if k2 == k then (k2, v) :: rest else (k2, v2) :: setPlainHeader rest k v

/-- `parseFetchHeaders` of part_002 lines 144-148: folds the transport's
header pairs into a record, so duplicate names collapse last-wins. -/
def parseFetchHeaders (hs : List (Chars × Chars)) : List (Chars × Chars) :=
  hs.foldl (fun acc kv => setPlainHeader acc kv.1 kv.2) []

/-- The `'Content-Type'` header key. -/
def contentTypeKey : Chars := "Content-Type".toList

/-- The `'application/json'` content type. -/
def applicationJson : Chars := "application/json".toList

/-- The five HTTP verbs of the client. -/
inductive Method where
  | GET | POST | PUT | PATCH | DELETE
deriving DecidableEq

/-- An opaque token standing for an arbitrary JavaScript exception value
(only identity matters to the client, which never inspects a caught
cause). -/
abbrev Cause := Nat

namespace Jttp

/-- `Jttp.RequestOptions` (part_002 lines 175-182): target url, method,
optional query parameters, headers (values possibly `undefined`), raw body
and structured body. -/
structure RequestOptions where
  url : Chars
  method : Method
  searchParams : List (Chars × Option Chars) := []
  headers : List (Chars × Option Chars) := []
  body : Option Chars := none
  bodyJson : Option JsonVal := none

/-- The response record `Jttp.Response` as built by `handleResponse`
(part_002 lines 85-95): status, parsed headers, raw text (`body`), the
eagerly parsed JSON value and the flag marking a failed text read or JSON
parse.  The `bodyJson` getter is modelled by `readBodyJson` below. -/
structure ResponseRec where
  status : Int
  headers : List (Chars × Chars)
  body : Option Chars
  json : Option JsonVal
  invalidJson : Bool

/-- One access to the `bodyJson` getter: the value it returns, paired with
whether this access emits the could-not-parse console warning.  The getter
closes over the immutable locals `json` and `invalidJsonResponse`, so
every access computes the same pair. -/
def ResponseRec.readBodyJson (r : ResponseRec) : Option JsonVal × Bool :=
  (r.json, r.invalidJson)

/-- Two successive accesses to the `bodyJson` getter. -/
def ResponseRec.readTwice (r : ResponseRec) :
    (Option JsonVal × Bool) × (Option JsonVal × Bool) :=
  (r.readBodyJson, r.readBodyJson)

/-- What the injected `fetch` resolves with: status, header pairs, and the
outcome of `text()` (`none`: the read throws; `some none`: it resolves
with `undefined`; `some (some t)`: it resolves with the text `t`). -/
structure FetchResponse where
  status : Int
  headers : List (Chars × Chars)
  textResult : Option (Option Chars)

/-- Outcome of awaiting the `fetch` call: an exception or a response. -/
inductive FetchOutcome where
  | throw (cause : Cause)
  | ok (r : FetchResponse)

/-- The argument object handed to the `fetch` call (part_002 lines
62-66). -/
structure FetchArgs where
  url : Chars
  method : Method
  headers : List (Chars × Chars)
  body : Option Chars

/-- A value a `Jttp` call can reject with: the `ResponseError` thrown by
the default error interceptor, or an arbitrary other exception. -/
inductive Failure where
  | responseError (request : RequestOptions) (response : ResponseRec)
  | other (tag : Nat)

/-- `Jttp.defaultRequestInterceptor`: identity. -/
def defaultRequestInterceptor : RequestOptions → RequestOptions := id

/-- `Jttp.defaultResponseSuccessInterceptor`: resolves with the response
record unchanged. -/
def defaultResponseSuccessInterceptor (_request : RequestOptions) (response : ResponseRec) :
    Except Failure ResponseRec :=
  Except.ok response

/-- `Jttp.defaultResponseErrorInterceptor`: throws the `ResponseError`
pairing request and response (the interceptor receives no cause and the
thrown value carries none). -/
def defaultResponseErrorInterceptor (request : RequestOptions) (response : ResponseRec) :
    Except Failure ResponseRec :=
  Except.error (Failure.responseError request response)

/-- The request object built in `makeRequest` before the request
interceptor runs (part_002 lines 51-58): the url is fully constructed and
the headers are the spec headers with the `Content-Type` entry set to the
explicit value when that is truthy, to `application/json` when the
structured body is truthy, and to `undefined` otherwise. -/
def resolvePreInterceptor (baseUrl : Option Chars) (opts : RequestOptions) : RequestOptions :=
  { opts with
    url := constructCompleteUrl baseUrl opts.url opts.searchParams,
    headers := setHeader opts.headers contentTypeKey
      (orElseJs (getHeaderVal opts.headers contentTypeKey)
        (if jsTruthyOpt opts.bodyJson then some applicationJson else none)) }

/-- The argument object of the `fetch` call (part_002 lines 62-66):
`opts` is the original argument of `makeRequest` and `options` the value
returned by the request interceptor.  The source tests the
post-interceptor `options.bodyJson` for truthiness but stringifies the
pre-interceptor `opts.bodyJson`. -/
def transportArgs (opts options : RequestOptions) : FetchArgs :=
  { url := options.url,
    method := options.method,
    headers := removeUndefinedMappings options.headers,
    body :=
      if jsTruthyOpt options.bodyJson then opts.bodyJson.map encodeJson
      else options.body }

/-- The synthetic response record of the transport-exception catch branch
(part_002 line 68): status `0`, absent bodies, empty headers. -/
def syntheticResponse : ResponseRec :=
  { status := 0, headers := [], body := none, json := none, invalidJson := false }

/-- The locals of `handleResponse` (part_002 lines 73-95) assembled into
the response record: the text is read, a defined text is parsed, and a
throwing read or parse sets the invalid-JSON flag. -/
def buildResponse (parse : Chars → Option JsonVal) (fr : FetchResponse) : ResponseRec :=
  match fr.textResult with
  | none =>
      { status := fr.status, headers := parseFetchHeaders fr.headers,
        body := none, json := none, invalidJson := true }
  | some none =>
      { status := fr.status, headers := parseFetchHeaders fr.headers,
        body := none, json := none, invalidJson := false }
  | some (some t) =>
      match parse t with
      | none =>
          { status := fr.status, headers := parseFetchHeaders fr.headers,
            body := some t, json := none, invalidJson := true }
      | some j =>
          { status := fr.status, headers := parseFetchHeaders fr.headers,
            body := some t, json := some j, invalidJson := false }

/-- `handleResponse` (part_002 lines 73-104): builds the response record,
then routes to the success interceptor when `200 <= status < 400` and to
the error interceptor otherwise, returning the interceptor's result. -/
def handleResponse {α : Type} (parse : Chars → Option JsonVal)
    (si ei : RequestOptions → ResponseRec → Except Failure α)
    (request : RequestOptions) (fr : FetchResponse) : Except Failure α :=
  let response := buildResponse parse fr
  if 200 ≤ response.status ∧ response.status < 400 then si request response
  else ei request response

/-- The `TypeError` raised by invoking an `undefined` `fetchInstance`. -/
def missingFetchTypeError : Cause := 0

/-- `makeRequest` (part_002 lines 50-71).  `fetchInstance` is `none` when
neither a caller-supplied nor an ambient `fetch` exists (in which case the
call `this.fetchInstance(...)` raises a `TypeError` inside the `try`
block); the `catch` branch hands the synthetic status-0 record to the
error interceptor, and a resolved response goes to `handleResponse`. -/
def makeRequest {α : Type} (fetchInstance : Option (FetchArgs → FetchOutcome))
    (ri : RequestOptions → RequestOptions) (parse : Chars → Option JsonVal)
    (si ei : RequestOptions → ResponseRec → Except Failure α)
    (baseUrl : Option Chars) (opts : RequestOptions) : Except Failure α :=
  let options := ri (resolvePreInterceptor baseUrl opts)
  let outcome :=
    match fetchInstance with
    | none => FetchOutcome.throw missingFetchTypeError
    | some f => f (transportArgs opts options)
  match outcome with
  | .throw _ => ei options syntheticResponse
  | .ok fr => handleResponse parse si ei options fr

end Jttp

namespace Yesttp

/-- `Yesttp.RequestSummary` (part_003 lines 183-197): target url, method,
query parameters, headers, per-request credentials, structured body
(`body`) and raw body (`bodyRaw`). -/
structure RequestSummary where
  url : Chars
  method : Method
  searchParams : List (Chars × Option Chars) := []
  headers : List (Chars × Option Chars) := []
  credentials : Option Nat := none
  body : Option JsonVal := none
  bodyRaw : Option Chars := none

/-- The response record `Yesttp.Response` as built by `handleResponse`
(part_003 lines 91-101): status, parsed headers, raw text (`bodyRaw`),
the eagerly parsed JSON value and the invalid-JSON flag behind the
warning-on-access `body` getter. -/
structure ResponseRec where
  status : Int
  headers : List (Chars × Chars)
  bodyRaw : Option Chars
  json : Option JsonVal
  invalidJson : Bool

/-- What the `fetch` call of part_003 receives (lines 67-72); the headers
keep their possibly-`undefined` values because `Yesttp` strips them at
normalization time only, not at the call. -/
structure FetchArgs where
  url : Chars
  method : Method
  headers : List (Chars × Option Chars)
  body : Option Chars
  credentials : Option Nat

/-- What the injected `fetch` resolves with (as for `Jttp`). -/
structure FetchResponse where
  status : Int
  headers : List (Chars × Chars)
  textResult : Option (Option Chars)

/-- Outcome of awaiting the `fetch` call. -/
inductive FetchOutcome where
  | throw (cause : Cause)
  | ok (r : FetchResponse)

/-- A value a `Yesttp` call can reject with: the missing-transport
configuration error thrown at the top of `makeRequest` (part_003 lines
52-54), the `ResponseError` thrown by the default error interceptor, or
an arbitrary other exception. -/
inductive Failure where
  | configError
  | responseError (request : RequestSummary) (response : ResponseRec)
  | other (tag : Nat)

/-- `Yesttp.defaultRequestInterceptor`: identity. -/
def defaultRequestInterceptor : RequestSummary → RequestSummary := id

/-- `Yesttp.defaultResponseSuccessInterceptor`: resolves with the
response record unchanged. -/
def defaultResponseSuccessInterceptor (_request : RequestSummary) (response : ResponseRec) :
    Except Failure ResponseRec :=
  Except.ok response

/-- `Yesttp.defaultResponseErrorInterceptor` (part_003 lines 164-170):
logs the cause when present but throws the `ResponseError` pairing only
request and response; the thrown value does not carry the cause. -/
def defaultResponseErrorInterceptor (request : RequestSummary) (response : ResponseRec)
    (_cause : Option Cause) : Except Failure ResponseRec :=
  Except.error (Failure.responseError request response)

/-- `removeUndefinedMappings` of part_003 lines 139-148 applied where the
surrounding type keeps string-or-undefined values: only the defined
entries are retained, in order. -/
def removeUndefinedMappings (hs : List (Chars × Option Chars)) : List (Chars × Option Chars) :=
  hs.filter (fun kv => kv.2.isSome)

/-- The request object built in `makeRequest` before the request
interceptor runs (part_003 lines 55-63): constructed url, request
credentials defaulting to the instance credentials, and headers with the
computed `Content-Type` followed by the stripping of undefined values. -/
def resolvePreInterceptor (baseUrl : Option Chars) (credentials : Option Nat)
    (opts : RequestSummary) : RequestSummary :=
  { opts with
    url := constructCompleteUrl baseUrl opts.url opts.searchParams,
    credentials := opts.credentials.orElse (fun _ => credentials),
    headers := removeUndefinedMappings (setHeader opts.headers contentTypeKey
      (orElseJs (getHeaderVal opts.headers contentTypeKey)
        (if jsTruthyOpt opts.body then some applicationJson else none))) }

/-- The argument object of the `fetch` call (part_003 lines 67-72), built
entirely from the post-interceptor request `options`. -/
def transportArgs (options : RequestSummary) : FetchArgs :=
  { url := options.url,
    method := options.method,
    headers := options.headers,
    body :=
      if jsTruthyOpt options.body then options.body.map encodeJson
      else options.bodyRaw,
    credentials := options.credentials }

/-- The synthetic response record of the transport-exception catch branch
(part_003 line 74): status `0`, absent bodies, empty headers. -/
def syntheticResponse : ResponseRec :=
  { status := 0, headers := [], bodyRaw := none, json := none, invalidJson := false }

/-- The locals of `handleResponse` (part_003 lines 79-101) assembled into
the response record. -/
def buildResponse (parse : Chars → Option JsonVal) (fr : FetchResponse) : ResponseRec :=
  match fr.textResult with
  | none =>
      { status := fr.status, headers := parseFetchHeaders fr.headers,
        bodyRaw := none, json := none, invalidJson := true }
  | some none =>
      { status := fr.status, headers := parseFetchHeaders fr.headers,
        bodyRaw := none, json := none, invalidJson := false }
  | some (some t) =>
      match parse t with
      | none =>
          { status := fr.status, headers := parseFetchHeaders fr.headers,
            bodyRaw := some t, json := none, invalidJson := true }
      | some j =>
          { status := fr.status, headers := parseFetchHeaders fr.headers,
            bodyRaw := some t, json := some j, invalidJson := false }

/-- `handleResponse` (part_003 lines 79-110): success route for
`200 <= status < 400`, error route otherwise; the error interceptor is
called without a cause on this path. -/
def handleResponse {α : Type} (parse : Chars → Option JsonVal)
    (si : RequestSummary → ResponseRec → Except Failure α)
    (ei : RequestSummary → ResponseRec → Option Cause → Except Failure α)
    (request : RequestSummary) (fr : FetchResponse) : Except Failure α :=
  let response := buildResponse parse fr
  if 200 ≤ response.status ∧ response.status < 400 then si request response
  else ei request response none

/-- `makeRequest` (part_003 lines 51-77): throws the configuration error
when no transport is available, before any interceptor runs; otherwise
resolves the request, invokes the transport, routes a transport exception
(with its cause) to the error interceptor with the synthetic status-0
record, and hands a resolved response to `handleResponse`. -/
def makeRequest {α : Type} (fetchInstance : Option (FetchArgs → FetchOutcome))
    (ri : RequestSummary → RequestSummary) (parse : Chars → Option JsonVal)
    (si : RequestSummary → ResponseRec → Except Failure α)
    (ei : RequestSummary → ResponseRec → Option Cause → Except Failure α)
    (baseUrl : Option Chars) (credentials : Option Nat) (opts : RequestSummary) :
    Except Failure α :=
  match fetchInstance with
  | none => Except.error Failure.configError
  | some f =>
    let options := ri (resolvePreInterceptor baseUrl credentials opts)
    match f (transportArgs options) with
    | .throw e => ei options syntheticResponse (some e)
    | .ok fr => handleResponse parse si ei options fr

end Yesttp

/-- Structured body `{a: 1}` of the stale-body check. -/
def c1BodyA : JsonVal := .obj (.cons ("a".toList) (.num 1) .nil)

/-- Structured body `{b: 2}` that the request interceptor of the
stale-body check substitutes for `c1BodyA`. -/
def c1BodyB : JsonVal := .obj (.cons ("b".toList) (.num 2) .nil)

/-- A POST request carrying the structured body `{a: 1}`. -/
def c1Opts : Jttp.RequestOptions :=
  { url := "/x".toList, method := Method.POST, bodyJson := some c1BodyA }

/-- A request interceptor that rewrites the structured-body field to
`{b: 2}`. -/
def c1Interceptor : Jttp.RequestOptions → Jttp.RequestOptions :=
  fun r => { r with bodyJson := some c1BodyB }

/-- The url builder is the base/path join followed by the query suffix. -/
lemma constructCompleteUrl_eq (baseUrl : Option Chars) (url : Chars)
    (ps : List (Chars × Option Chars)) :
    constructCompleteUrl baseUrl url ps = joinBaseAndPath baseUrl url ++ querySuffix ps := by
  unfold constructCompleteUrl querySuffix
  by_cases h : encodeSearchParams (dropAbsentParams ps) = []
  · simp [h]
  · simp [h]

/-- A non-empty parameter list encodes to a non-empty string. -/
lemma encodeSearchParams_ne_nil (l : List (Chars × Chars)) (h : l ≠ []) :
    encodeSearchParams l ≠ [] := by
  match l with
  | [] => exact absurd rfl h
  | [(k, v)] =>
      unfold encodeSearchParams
      intro hc
      rcases List.append_eq_nil.mp hc with ⟨_, h2⟩
      exact List.cons_ne_nil _ _ h2
  | (k, v) :: kv :: rest =>
      unfold encodeSearchParams
      intro hc
      rcases List.append_eq_nil.mp hc with ⟨_, h2⟩
      exact List.cons_ne_nil _ _ h2

/-- Removing the absent-valued entries first does not change the encoded
parameter list. -/
lemma dropAbsentParams_definedOnly (ps : List (Chars × Option Chars)) :
    dropAbsentParams (definedOnly ps) = dropAbsentParams ps := by
  induction ps with
  | nil => rfl
  | cons kv rest ih =>
      rcases kv with ⟨k, v⟩
      cases v with
      | none => simpa [definedOnly, dropAbsentParams] using ih
      | some w => simpa [definedOnly, dropAbsentParams] using ih

/-- The keys surviving the drop of absent values, in order. -/
lemma dropAbsentParams_keys (ps : List (Chars × Option Chars)) :
    (dropAbsentParams ps).map Prod.fst
      = (ps.filter (fun kv => kv.2.isSome)).map Prod.fst := by
  induction ps with
  | nil => rfl
  | cons kv rest ih =>
      rcases kv with ⟨k, v⟩
      cases v with
      | none => simpa [dropAbsentParams, List.filter] using ih
      | some w => simpa [dropAbsentParams, List.filter] using ih

/-- Membership in the stripped header record: exactly the defined entries
of the input survive, with their values unwrapped. -/
lemma mem_removeUndefinedMappings (hs : List (Chars × Option Chars)) (k v : Chars) :
    (k, v) ∈ removeUndefinedMappings hs ↔ (k, some v) ∈ hs := by
  simp only [removeUndefinedMappings, List.mem_filterMap]
  constructor
  · rintro ⟨⟨k2, v2⟩, hmem, heq⟩
    cases v2 with
    | none => simp at heq
    | some w =>
        have heq2 : k2 = k ∧ w = v := by
          constructor
          · have := congrArg (fun o => (o.getD (k, v)).1) heq
            simpa using this
          · have := congrArg (fun o => (o.getD (k, v)).2) heq
            simpa using this
        obtain ⟨h1, h2⟩ := heq2
        subst h1
        subst h2
        exact hmem
  · intro h
    exact ⟨(k, some v), h, by simp⟩

/-- Reading back the header just set. -/
lemma getHeaderVal_setHeader_self (hs : List (Chars × Option Chars)) (k : Chars)
    (v : Option Chars) : getHeaderVal (setHeader hs k v) k = v := by
  induction hs with
  | nil => simp [setHeader, getHeaderVal]
  | cons kv rest ih =>
      rcases kv with ⟨k2, v2⟩
      by_cases h : k2 == k
      · simp [setHeader, getHeaderVal, h]
      · simp [setHeader, getHeaderVal, h, ih]

/-- On a record with pairwise distinct keys, the entry set to `undefined`
by `setHeader` is the only entry for that key. -/
lemma not_mem_setHeader_none (hs : List (Chars × Option Chars)) (k : Chars)
    (hnd : (hs.map Prod.fst).Nodup) (v : Chars) :
    (k, some v) ∉ setHeader hs k none := by
  induction hs with
  | nil => simp [setHeader]
  | cons kv rest ih =>
      rcases kv with ⟨k2, v2⟩
      simp only [List.map_cons, List.nodup_cons] at hnd
      by_cases h : (k2 == k) = true
      · have hk : k2 = k := by simpa using h
        subst hk
        simp only [setHeader, h, if_pos]
        intro hmem
        rcases List.mem_cons.mp hmem with heq | hmem2
        · exact absurd heq (by simp)
        · exact hnd.1 (by simpa using List.mem_map_of_mem Prod.fst hmem2)
      · simp only [setHeader, h, if_neg, Bool.false_eq_true, not_false_iff]
        intro hmem
        rcases List.mem_cons.mp hmem with heq | hmem2
        · have hk : k = k2 := by
            have := congrArg Prod.fst heq
            simpa using this
          exact absurd (by simp [hk]) h
        · exact ih hnd.2 hmem2

/-- On a record with pairwise distinct keys, setting a key to `undefined`
guarantees the stripped record contains no entry for that key. -/
lemma not_mem_removeUndefined_setHeader_none (hs : List (Chars × Option Chars)) (k : Chars)
    (hnd : (hs.map Prod.fst).Nodup) (v : Chars) :
    (k, v) ∉ removeUndefinedMappings (setHeader hs k none) := fun hmem =>
  not_mem_setHeader_none hs k hnd v ((mem_removeUndefinedMappings _ _ _).mp hmem)

/-- The response record keeps the transport's status code. -/
lemma Jttp.buildResponseKeepsStatus (parse : Chars → Option JsonVal) (fr : Jttp.FetchResponse) :
    (Jttp.buildResponse parse fr).status = fr.status := by
  rcases fr with ⟨s, hs, tr⟩
  cases tr with
  | none => rfl
  | some t0 =>
      cases t0 with
      | none => rfl
      | some t => cases hp : parse t <;> simp [Jttp.buildResponse, hp]

/-- The response record keeps the transport's status code. -/
lemma Yesttp.responseKeepsStatus (parse : Chars → Option JsonVal) (fr : Yesttp.FetchResponse) :
    (Yesttp.buildResponse parse fr).status = fr.status := by
  rcases fr with ⟨s, hs, tr⟩
  cases tr with
  | none => rfl
  | some t0 =>
      cases t0 with
      | none => rfl
      | some t => cases hp : parse t <;> simp [Yesttp.buildResponse, hp]

/-- A string ending with a slash is its `dropLast` plus that slash. -/
lemma endsWithSlash_concat (l : Chars) (h : endsWithSlash l = true) :
    l.dropLast ++ ['/'] = l := by
  induction l with
  | nil => simp [endsWithSlash] at h
  | cons c rest ih =>
      cases rest with
      | nil =>
          have hc : c = '/' := by simpa [endsWithSlash] using h
          simp [hc]
      | cons d rest2 =>
          have h2 : endsWithSlash (d :: rest2) = true := by
            simpa [endsWithSlash, List.getLast?_cons_cons] using h
          show c :: ((d :: rest2).dropLast ++ ['/']) = c :: d :: rest2
          rw [ih h2]

/-- A string starting with a slash is that slash plus its tail. -/
lemma startsWithSlash_cons (l : Chars) (h : startsWithSlash l = true) :
    l = '/' :: l.tail := by
  cases l with
  | nil => simp [startsWithSlash] at h
  | cons c rest =>
      have hc : c = '/' := by simpa [startsWithSlash] using h
      simp [hc]

/-- For a non-absolute path the joined url always decomposes as: base with
one trailing slash stripped, one separating slash, path with one leading
slash stripped. -/
lemma joinBaseAndPath_decomp (baseUrl : Option Chars) (url : Chars)
    (h1 : isAbsoluteUrl url = false) :
    joinBaseAndPath baseUrl url
      = stripTrailingSlash (baseUrl.getD []) ++ '/' :: stripLeadingSlash url := by
  by_cases eb : endsWithSlash (baseUrl.getD []) = true
  · by_cases su : startsWithSlash url = true
    · simp only [joinBaseAndPath, h1, eb, su, stripTrailingSlash, stripLeadingSlash,
        Bool.not_true, Bool.false_and, Bool.and_self, if_true, if_pos,
        Bool.false_eq_true, if_false]
      conv_lhs => rw [startsWithSlash_cons url su]
    · simp only [joinBaseAndPath, h1, eb, su, stripTrailingSlash, stripLeadingSlash,
        Bool.not_true, Bool.not_false, Bool.false_and, Bool.true_and, Bool.and_false,
        Bool.false_eq_true, if_false, if_true, List.append_nil]
      conv_lhs => rw [← endsWithSlash_concat _ eb]
      simp
  · by_cases su : startsWithSlash url = true
    · have eb2 : endsWithSlash (baseUrl.getD []) = false := by simpa using eb
      simp only [joinBaseAndPath, h1, eb2, su, stripTrailingSlash, stripLeadingSlash,
        Bool.not_true, Bool.not_false, Bool.false_and, Bool.true_and, Bool.and_false,
        Bool.false_eq_true, if_false, if_true, List.append_nil]
      conv_lhs => rw [startsWithSlash_cons url su]
    · have eb2 : endsWithSlash (baseUrl.getD []) = false := by simpa using eb
      have su2 : startsWithSlash url = false := by simpa using su
      simp only [joinBaseAndPath, h1, eb2, su2, stripTrailingSlash, stripLeadingSlash,
        Bool.not_false, Bool.true_and, Bool.false_and, Bool.and_false, Bool.and_self,
        Bool.false_eq_true, if_false, if_true]
      simp

/-- C1: the claim states that the body handed to the transport is the
JSON encoding of the structured body as it stands after the request
interceptor has run.  `Jttp.makeRequest` (part_002 line 65) tests the
post-interceptor `options.bodyJson` for truthiness but stringifies the
pre-interceptor `opts.bodyJson`: with an interceptor rewriting the
structured body from `{a: 1}` to `{b: 2}`, the transport receives the
encoding of the stale `{a: 1}`, not of the rewritten `{b: 2}` — contrary
to the claim (and to `Yesttp`, part_003 line 70, which stringifies the
post-interceptor field). -/
theorem claim_C1_stale_body_evaluation :
    (Jttp.transportArgs c1Opts (c1Interceptor (Jttp.resolvePreInterceptor none c1Opts))).body
      = some (encodeJson c1BodyA)
    ∧ (c1Interceptor (Jttp.resolvePreInterceptor none c1Opts)).bodyJson = some c1BodyB
    ∧ encodeJson c1BodyA ≠ encodeJson c1BodyB :=
  ⟨rfl, rfl, by decide⟩

/-- C2 counterexample: on a `Jttp` client with no transport available the
error interceptor IS invoked (here it returns `42`, which becomes the
call's result), and the call is not rejected with a configuration error —
the `TypeError` raised by invoking the `undefined` `fetchInstance` is
caught by the `try` block around the transport call (part_002 lines
61-69) and routed to the error interceptor with the synthetic status-0
record.  This falsifies the claim that the error interceptor is never
invoked on this path. -/
theorem claim_C2_counterexample :
    Jttp.makeRequest (α := Nat) none id (fun _ => none)
      (fun _ _ => Except.ok 0) (fun _ _ => Except.ok 42) none
      { url := "/x".toList, method := Method.GET } = Except.ok 42 :=
  rfl

/-- C2 amended: on `Yesttp` a request attempted with no transport rejects
with the configuration error before any interceptor is consulted (for
every choice of interceptors); on `Jttp` the missing transport is instead
detected only inside the transport `try` block, so the call is routed
through the error interceptor with the synthetic status-0 record. -/
theorem claim_C2_amended :
    (∀ (α : Type) (ri : Yesttp.RequestSummary → Yesttp.RequestSummary)
        (parse : Chars → Option JsonVal)
        (si : Yesttp.RequestSummary → Yesttp.ResponseRec → Except Yesttp.Failure α)
        (ei : Yesttp.RequestSummary → Yesttp.ResponseRec → Option Cause → Except Yesttp.Failure α)
        (baseUrl : Option Chars) (credentials : Option Nat) (opts : Yesttp.RequestSummary),
      Yesttp.makeRequest none ri parse si ei baseUrl credentials opts
        = Except.error Yesttp.Failure.configError)
    ∧ (∀ (α : Type) (ri : Jttp.RequestOptions → Jttp.RequestOptions)
        (parse : Chars → Option JsonVal)
        (si ei : Jttp.RequestOptions → Jttp.ResponseRec → Except Jttp.Failure α)
        (baseUrl : Option Chars) (opts : Jttp.RequestOptions),
      Jttp.makeRequest none ri parse si ei baseUrl opts
        = ei (ri (Jttp.resolvePreInterceptor baseUrl opts)) Jttp.syntheticResponse) :=
  ⟨fun _ _ _ _ _ _ _ _ => rfl, fun _ _ _ _ _ _ _ => rfl⟩

/-- C3 counterexample: two `Jttp` runs whose transports throw the
distinct causes `7` and `8` produce identical failure values, and that
value is the `ResponseError` pairing the resolved request with the
synthetic status-0 record — it references no cause at all.  The error
interceptor of `Jttp` is not even handed the caught cause (part_002 line
68 passes only request and response), so the claim that the interceptor
receives the caught cause and that the call fails carrying a structured
error referencing the original cause is false on `Jttp`. -/
theorem claim_C3_counterexample :
    (7 : Cause) ≠ 8
    ∧ Jttp.makeRequest (some (fun _ => Jttp.FetchOutcome.throw 7)) id (fun _ => none)
        Jttp.defaultResponseSuccessInterceptor Jttp.defaultResponseErrorInterceptor none
        { url := "/x".toList, method := Method.GET }
      = Jttp.makeRequest (some (fun _ => Jttp.FetchOutcome.throw 8)) id (fun _ => none)
        Jttp.defaultResponseSuccessInterceptor Jttp.defaultResponseErrorInterceptor none
        { url := "/x".toList, method := Method.GET }
    ∧ Jttp.makeRequest (some (fun _ => Jttp.FetchOutcome.throw 7)) id (fun _ => none)
        Jttp.defaultResponseSuccessInterceptor Jttp.defaultResponseErrorInterceptor none
        { url := "/x".toList, method := Method.GET }
      = Except.error (Jttp.Failure.responseError
          (Jttp.resolvePreInterceptor none { url := "/x".toList, method := Method.GET })
          Jttp.syntheticResponse) :=
  ⟨by decide, rfl, rfl⟩

/-- C3 amended: when the transport call throws, the error interceptor is
invoked with the resolved request and the synthetic status-0 record
(absent bodies, empty headers); `Yesttp` additionally hands it the caught
cause, while `Jttp` does not pass the cause at all (its result does not
depend on the cause).  With the default error interceptor the call fails
carrying the `ResponseError` pairing request and synthetic response; the
cause is logged but not embedded in the failure value.  On the
resolved-response path the record handed to an interceptor keeps the
transport's status, so the error interceptor sees status 0 there only if
the transport itself reported 0. -/
theorem claim_C3_amended :
    (∀ (α : Type) (ri : Yesttp.RequestSummary → Yesttp.RequestSummary)
        (parse : Chars → Option JsonVal)
        (si : Yesttp.RequestSummary → Yesttp.ResponseRec → Except Yesttp.Failure α)
        (ei : Yesttp.RequestSummary → Yesttp.ResponseRec → Option Cause → Except Yesttp.Failure α)
        (baseUrl : Option Chars) (credentials : Option Nat) (opts : Yesttp.RequestSummary)
        (cause : Cause),
      Yesttp.makeRequest (some (fun _ => Yesttp.FetchOutcome.throw cause)) ri parse si ei
          baseUrl credentials opts
        = ei (ri (Yesttp.resolvePreInterceptor baseUrl credentials opts))
            Yesttp.syntheticResponse (some cause))
    ∧ (∀ (ri : Yesttp.RequestSummary → Yesttp.RequestSummary)
        (parse : Chars → Option JsonVal)
        (si : Yesttp.RequestSummary → Yesttp.ResponseRec → Except Yesttp.Failure Yesttp.ResponseRec)
        (baseUrl : Option Chars) (credentials : Option Nat) (opts : Yesttp.RequestSummary)
        (cause : Cause),
      Yesttp.makeRequest (some (fun _ => Yesttp.FetchOutcome.throw cause)) ri parse si
          Yesttp.defaultResponseErrorInterceptor baseUrl credentials opts
        = Except.error (Yesttp.Failure.responseError
            (ri (Yesttp.resolvePreInterceptor baseUrl credentials opts))
            Yesttp.syntheticResponse))
    ∧ (∀ (parse : Chars → Option JsonVal) (fr : Yesttp.FetchResponse),
        (Yesttp.buildResponse parse fr).status = fr.status)
    ∧ (∀ (α : Type) (ri : Jttp.RequestOptions → Jttp.RequestOptions)
        (parse : Chars → Option JsonVal)
        (si ei : Jttp.RequestOptions → Jttp.ResponseRec → Except Jttp.Failure α)
        (baseUrl : Option Chars) (opts : Jttp.RequestOptions) (c1 c2 : Cause),
      Jttp.makeRequest (some (fun _ => Jttp.FetchOutcome.throw c1)) ri parse si ei baseUrl opts
        = Jttp.makeRequest (some (fun _ => Jttp.FetchOutcome.throw c2)) ri parse si ei
            baseUrl opts) :=
  ⟨fun _ _ _ _ _ _ _ _ _ => rfl,
   fun _ _ _ _ _ _ _ => rfl,
   fun parse fr => Yesttp.responseKeepsStatus parse fr,
   fun _ _ _ _ _ _ _ _ _ => rfl⟩

/-- C4 counterexample: with base `a//` and path `/b` (non-absolute), the
url builder takes the drop-one-slash branch and returns `a//b`: the
base's contribution after the drop (`a/`) still ends with a slash and the
path supplies the separating slash, so two adjacent slashes stand at the
join point — refuting the claim that the result never has a double slash
at the join for every base and non-absolute path. -/
theorem claim_C4_counterexample :
    isAbsoluteUrl ("/b".toList) = false
    ∧ constructCompleteUrl (some ("a//".toList)) ("/b".toList) [] = "a//b".toList
    ∧ constructCompleteUrl (some ("a//".toList)) ("/b".toList) []
        = stripTrailingSlash ("a//".toList) ++ '/' :: stripLeadingSlash ("/b".toList)
    ∧ endsWithSlash (stripTrailingSlash ("a//".toList)) = true :=
  ⟨rfl, rfl, rfl, rfl⟩

/-- C4 amended: for every base (possibly absent, treated as empty) with
at most one trailing slash and every non-absolute path with at most one
leading slash, the url builder joins them with exactly one separating
slash: the result is the base stripped of one trailing slash, a single
`/`, and the path stripped of one leading slash, and the stripped parts
carry no further slash at the boundary. -/
theorem claim_C4_amended (baseUrl : Option Chars) (url : Chars)
    (h1 : isAbsoluteUrl url = false)
    (h2 : twoTrailingSlashes (baseUrl.getD []) = false)
    (h3 : twoLeadingSlashes url = false) :
    constructCompleteUrl baseUrl url []
      = stripTrailingSlash (baseUrl.getD []) ++ '/' :: stripLeadingSlash url
    ∧ endsWithSlash (stripTrailingSlash (baseUrl.getD [])) = false
    ∧ startsWithSlash (stripLeadingSlash url) = false := by
  refine ⟨?_, ?_, ?_⟩
  · rw [constructCompleteUrl_eq]
    simp only [querySuffix, dropAbsentParams, List.filterMap_nil, encodeSearchParams,
      if_pos, List.append_nil]
    exact joinBaseAndPath_decomp baseUrl url h1
  · unfold stripTrailingSlash
    unfold twoTrailingSlashes at h2
    by_cases eb : endsWithSlash (baseUrl.getD []) = true
    · rw [if_pos eb]
      rw [eb] at h2
      simpa using h2
    · rw [if_neg eb]
      simpa using eb
  · unfold stripLeadingSlash
    unfold twoLeadingSlashes at h3
    by_cases su : startsWithSlash url = true
    · rw [if_pos su]
      rw [su] at h3
      simpa using h3
    · rw [if_neg su]
      simpa using su

/-- C4 witness: scenario A of the spec — base `https://api.backend.com/`
with path `/users` joins to `https://api.backend.com/users`, with exactly
one slash at the join point. -/
theorem claim_C4_amended_witness :
    constructCompleteUrl (some ("https://api.backend.com/".toList)) ("/users".toList) []
      = stripTrailingSlash ("https://api.backend.com/".toList)
          ++ '/' :: stripLeadingSlash ("/users".toList)
    ∧ endsWithSlash (stripTrailingSlash ("https://api.backend.com/".toList)) = false
    ∧ startsWithSlash (stripLeadingSlash ("/users".toList)) = false :=
  claim_C4_amended (some ("https://api.backend.com/".toList)) ("/users".toList)
    (by decide) (by decide) (by decide)

/-- C5 counterexample: the normalizer decides the `Content-Type` with
JavaScript truthiness, not presence.  First run: a structured body is
present but falsy (`0`), no explicit `Content-Type` is given, and the
normalizer leaves the `Content-Type` value absent — the claim requires
`application/json`.  Second run: an explicit `Content-Type` is supplied
with the (falsy) empty-string value alongside a truthy structured body,
and the normalizer overrides it to `application/json` — the claim
requires the explicit value to be left unchanged. -/
theorem claim_C5_counterexample :
    getHeaderVal (Jttp.resolvePreInterceptor none
        { url := "/x".toList, method := Method.POST,
          bodyJson := some (JsonVal.num 0) }).headers contentTypeKey = none
    ∧ jsTruthyOpt (some (JsonVal.num 0)) = false
    ∧ getHeaderVal (Jttp.resolvePreInterceptor none
        { url := "/x".toList, method := Method.POST,
          headers := [(contentTypeKey, some [])],
          bodyJson := some (JsonVal.bool true) }).headers contentTypeKey
        = some applicationJson :=
  ⟨rfl, rfl, by decide⟩

/-- C5 amended: on a header record with pairwise distinct keys the
normalizer computes the `Content-Type` with JavaScript truthiness: a
truthy explicit value is kept unchanged; with no truthy explicit value it
is `application/json` exactly when the structured body is truthy (absent
or falsy structured bodies — `null`, `false`, `0`, the empty string — set
none); and in the remaining case the entry is `undefined`, so the header
record handed to the transport carries no `Content-Type` at all. -/
theorem claim_C5_amended (baseUrl : Option Chars) (opts : Jttp.RequestOptions)
    (hnd : (opts.headers.map Prod.fst).Nodup) :
    (∀ s, getHeaderVal opts.headers contentTypeKey = some s → s.isEmpty = false →
        getHeaderVal (Jttp.resolvePreInterceptor baseUrl opts).headers contentTypeKey = some s)
    ∧ ((getHeaderVal opts.headers contentTypeKey = none
          ∨ getHeaderVal opts.headers contentTypeKey = some []) →
        jsTruthyOpt opts.bodyJson = true →
        getHeaderVal (Jttp.resolvePreInterceptor baseUrl opts).headers contentTypeKey
          = some applicationJson)
    ∧ ((getHeaderVal opts.headers contentTypeKey = none
          ∨ getHeaderVal opts.headers contentTypeKey = some []) →
        jsTruthyOpt opts.bodyJson = false →
        getHeaderVal (Jttp.resolvePreInterceptor baseUrl opts).headers contentTypeKey = none
        ∧ ∀ v, (contentTypeKey, v) ∉
            removeUndefinedMappings (Jttp.resolvePreInterceptor baseUrl opts).headers) := by
  refine ⟨?_, ?_, ?_⟩
  · intro s hs hne
    simp only [Jttp.resolvePreInterceptor, getHeaderVal_setHeader_self, orElseJs, hs, hne,
      Bool.false_eq_true, if_false]
  · intro hfalsy htruthy
    simp only [Jttp.resolvePreInterceptor, getHeaderVal_setHeader_self, htruthy, if_true]
    rcases hfalsy with h | h
    · simp [orElseJs, h]
    · simp [orElseJs, h]
  · intro hfalsy hfalsyBody
    have hval : orElseJs (getHeaderVal opts.headers contentTypeKey)
        (if jsTruthyOpt opts.bodyJson = true then some applicationJson else none) = none := by
      rcases hfalsy with h | h
      · simp [orElseJs, h, hfalsyBody]
      · simp [orElseJs, h, hfalsyBody]
    constructor
    · simp only [Jttp.resolvePreInterceptor, getHeaderVal_setHeader_self]
      simpa [hfalsyBody] using hval
    · intro v
      simp only [Jttp.resolvePreInterceptor]
      have hval2 : (orElseJs (getHeaderVal opts.headers contentTypeKey)
          (if jsTruthyOpt opts.bodyJson then some applicationJson else none)) = none := by
        simpa [hfalsyBody] using hval
      rw [hval2]
      exact not_mem_removeUndefined_setHeader_none opts.headers contentTypeKey hnd v

/-- C5 witness: scenario D of the spec — a POST with structured body and
no explicit `Content-Type` resolves with `Content-Type: application/json`. -/
theorem claim_C5_amended_witness :
    getHeaderVal (Jttp.resolvePreInterceptor none
        { url := "/json".toList, method := Method.POST,
          bodyJson := some (JsonVal.obj (JsonFields.cons ("abc".toList)
            (JsonVal.num 123) JsonFields.nil)) }).headers contentTypeKey
      = some applicationJson :=
  (claim_C5_amended none
    { url := "/json".toList, method := Method.POST,
      bodyJson := some (JsonVal.obj (JsonFields.cons ("abc".toList)
        (JsonVal.num 123) JsonFields.nil)) }
    (by simp)).2.1 (Or.inl rfl) rfl

/-- C6: the response resolver classifies a received response as success
exactly when `200 <= status < 400` and as error otherwise (the record
keeps the transport's status, including a synthetic 0), invokes the
corresponding interceptor with the resolved request and the response
record, and returns exactly that interceptor's result — stated for every
success and error interceptor, so the resolver can neither override nor
inspect what they produce. -/
theorem claim_C6_status_classification {α : Type} (parse : Chars → Option JsonVal)
    (si ei : Jttp.RequestOptions → Jttp.ResponseRec → Except Jttp.Failure α)
    (request : Jttp.RequestOptions) (fr : Jttp.FetchResponse) :
    (200 ≤ fr.status ∧ fr.status < 400 →
      Jttp.handleResponse parse si ei request fr = si request (Jttp.buildResponse parse fr))
    ∧ (¬(200 ≤ fr.status ∧ fr.status < 400) →
      Jttp.handleResponse parse si ei request fr = ei request (Jttp.buildResponse parse fr)) := by
  have hs := Jttp.buildResponseKeepsStatus parse fr
  constructor
  · intro h
    simp only [Jttp.handleResponse, hs]
    rw [if_pos h]
  · intro h
    simp only [Jttp.handleResponse, hs]
    rw [if_neg h]

/-- C6 witness: a status-200 response is routed to the success
interceptor and the resolver returns its result. -/
theorem claim_C6_witness :
    (200 ≤ (200 : Int) ∧ (200 : Int) < 400)
    ∧ Jttp.handleResponse (fun _ => none) Jttp.defaultResponseSuccessInterceptor
        Jttp.defaultResponseErrorInterceptor
        { url := "/e".toList, method := Method.GET }
        { status := 200, headers := [], textResult := some none }
      = Jttp.defaultResponseSuccessInterceptor { url := "/e".toList, method := Method.GET }
          (Jttp.buildResponse (fun _ => none)
            { status := 200, headers := [], textResult := some none }) :=
  ⟨by decide,
   (claim_C6_status_classification (fun _ => none) Jttp.defaultResponseSuccessInterceptor
      Jttp.defaultResponseErrorInterceptor
      { url := "/e".toList, method := Method.GET }
      { status := 200, headers := [], textResult := some none }).1 (by decide)⟩

/-- C7: each access to the decoded-body getter returns the stored parse
result and emits a warning exactly when the invalid flag is set, so when
the text parsed as JSON two reads both return that value without warning;
after a failed JSON parse or a failed text read, every access returns the
absent value and re-emits the warning (the getter closes over immutable
locals, so nothing is cached between accesses); the raw text, when it was
read, stays available unchanged. -/
theorem claim_C7_decoded_body_accessor (parse : Chars → Option JsonVal)
    (fr : Jttp.FetchResponse) :
    (∀ t j, fr.textResult = some (some t) → parse t = some j →
        (Jttp.buildResponse parse fr).readTwice = ((some j, false), (some j, false))
        ∧ (Jttp.buildResponse parse fr).body = some t)
    ∧ (∀ t, fr.textResult = some (some t) → parse t = none →
        (Jttp.buildResponse parse fr).readTwice = ((none, true), (none, true))
        ∧ (Jttp.buildResponse parse fr).body = some t)
    ∧ (fr.textResult = none →
        (Jttp.buildResponse parse fr).readTwice = ((none, true), (none, true))
        ∧ (Jttp.buildResponse parse fr).body = none) := by
  refine ⟨?_, ?_, ?_⟩
  · intro t j ht hp
    constructor <;>
      simp [Jttp.buildResponse, ht, hp, Jttp.ResponseRec.readTwice, Jttp.ResponseRec.readBodyJson]
  · intro t ht hp
    constructor <;>
      simp [Jttp.buildResponse, ht, hp, Jttp.ResponseRec.readTwice, Jttp.ResponseRec.readBodyJson]
  · intro ht
    constructor <;>
      simp [Jttp.buildResponse, ht, Jttp.ResponseRec.readTwice, Jttp.ResponseRec.readBodyJson]

/-- C7 witness: a body that fails to parse as JSON reads as absent with a
warning on each of two accesses, while the raw text stays available. -/
theorem claim_C7_witness :
    (Jttp.buildResponse (fun _ => none)
        { status := 200, headers := [], textResult := some (some ("Tada".toList)) }).readTwice
      = ((none, true), (none, true))
    ∧ (Jttp.buildResponse (fun _ => none)
        { status := 200, headers := [], textResult := some (some ("Tada".toList)) }).body
      = some ("Tada".toList) :=
  (claim_C7_decoded_body_accessor (fun _ => none)
    { status := 200, headers := [], textResult := some (some ("Tada".toList)) }).2.1
    ("Tada".toList) rfl rfl

/-- C8: for every path matching the absolute-url pattern the url builder
returns the path itself plus only the query suffix — the same result for
every base, which therefore contributes nothing. -/
theorem claim_C8_absolute_base_ignored (url : Chars) (h : isAbsoluteUrl url = true)
    (baseUrl : Option Chars) (ps : List (Chars × Option Chars)) :
    constructCompleteUrl baseUrl url ps = url ++ querySuffix ps := by
  rw [constructCompleteUrl_eq]
  unfold joinBaseAndPath
  rw [if_pos h]

/-- C8 witness: an absolute request url is returned unchanged even on a
client configured with a different base url. -/
theorem claim_C8_witness :
    isAbsoluteUrl ("https://www.google.com/hello".toList) = true
    ∧ constructCompleteUrl (some ("https://api.backend.com".toList))
        ("https://www.google.com/hello".toList) []
      = "https://www.google.com/hello".toList ++ querySuffix [] :=
  ⟨by decide,
   claim_C8_absolute_base_ignored ("https://www.google.com/hello".toList) (by decide)
     (some ("https://api.backend.com".toList)) []⟩

/-- C9: keys with absent values are dropped before encoding (encoding the
pre-dropped mapping gives the same url), nothing is appended when no
pairs survive, a `?` plus the encoded pairs is appended when some do, and
the surviving keys keep the insertion order of the input mapping. -/
theorem claim_C9_query_params (baseUrl : Option Chars) (url : Chars)
    (ps : List (Chars × Option Chars)) :
    constructCompleteUrl baseUrl url ps = constructCompleteUrl baseUrl url (definedOnly ps)
    ∧ (dropAbsentParams ps = [] →
        constructCompleteUrl baseUrl url ps = joinBaseAndPath baseUrl url)
    ∧ (dropAbsentParams ps ≠ [] →
        constructCompleteUrl baseUrl url ps
          = joinBaseAndPath baseUrl url ++ '?' :: encodeSearchParams (dropAbsentParams ps))
    ∧ (dropAbsentParams ps).map Prod.fst
        = (ps.filter (fun kv => kv.2.isSome)).map Prod.fst := by
  refine ⟨?_, ?_, ?_, dropAbsentParams_keys ps⟩
  · rw [constructCompleteUrl_eq, constructCompleteUrl_eq]
    unfold querySuffix
    rw [dropAbsentParams_definedOnly]
  · intro h
    rw [constructCompleteUrl_eq]
    unfold querySuffix
    simp [h, encodeSearchParams]
  · intro h
    rw [constructCompleteUrl_eq]
    unfold querySuffix
    rw [if_neg (encodeSearchParams_ne_nil _ h)]

/-- C9 witness: a defined parameter is encoded after `?` while an
absent-valued key is dropped. -/
theorem claim_C9_witness :
    constructCompleteUrl none ("/users".toList)
        [("abc".toList, some ("123".toList)), ("absent".toList, none)]
      = joinBaseAndPath none ("/users".toList)
          ++ '?' :: encodeSearchParams (dropAbsentParams
            [("abc".toList, some ("123".toList)), ("absent".toList, none)]) :=
  (claim_C9_query_params none ("/users".toList)
    [("abc".toList, some ("123".toList)), ("absent".toList, none)]).2.2.1 (by decide)

/-- C10: the header record handed to the transport call is exactly the
stripped version of the header record returned by the request
interceptor — the stripping runs after the interceptor — and an entry
survives into the transport headers exactly when the interceptor's output
maps that key to a defined value, so every transported header value is a
defined string. -/
theorem claim_C10_transport_headers_defined (ri : Jttp.RequestOptions → Jttp.RequestOptions)
    (baseUrl : Option Chars) (opts : Jttp.RequestOptions) :
    (Jttp.transportArgs opts (ri (Jttp.resolvePreInterceptor baseUrl opts))).headers
      = removeUndefinedMappings (ri (Jttp.resolvePreInterceptor baseUrl opts)).headers
    ∧ ∀ k v,
        (k, v) ∈ (Jttp.transportArgs opts (ri (Jttp.resolvePreInterceptor baseUrl opts))).headers
        ↔ (k, some v) ∈ (ri (Jttp.resolvePreInterceptor baseUrl opts)).headers :=
  ⟨rfl, fun k v => mem_removeUndefinedMappings _ k v⟩
